import Mathlib

/-!
Verification of the beacon-sdk peer-to-peer communication layer.

This file gives a shallow embedding, in Lean 4, of the relay-selection
algorithm, the forbidden-on-send recovery path, the room-join polling loop,
the Matrix client state store, the not-ready entry guards, and the pairing
request/response constructors of the repository, and proves (or refutes)
the specification claims about them.

Conventions of the embedding:
* hex strings are interpreted as nonnegative big integers by `hexToNat`
  (modelling `new BigNumber('0x' + s)`);
* the ambient crypto primitives (`getHexHash`, sealed box, secretbox) are
  out of scope per the specification and appear as explicit function
  parameters (`gh`, `encrypt`) of the embedded operations;
* JavaScript objects used as string-keyed maps are embedded as association
  lists `List (String × α)` with `alistLookup` / `alistSet`;
* JavaScript truthiness (`x || y`, `Boolean(x)`) is embedded field by field
  (`jsOrBool`, `jsOrStrOpt`, `jsOrNat`, ...), with `Option` for possibly
  absent / `undefined` values.
-/

set_option autoImplicit false
set_option maxRecDepth 100000

/-- Value of one hexadecimal digit character; `0` for any other character
(a non-hex input never reaches this point in the source, which only hashes
to hex strings). -/
def hexDigitVal (c : Char) : Nat :=
  let n := c.toNat
  if 48 ≤ n ∧ n ≤ 57 then n - 48
  else if 97 ≤ n ∧ n ≤ 102 then n - 87
  else if 65 ≤ n ∧ n ≤ 70 then n - 55
  else 0

/-- A hex string as a nonnegative big integer, as `new BigNumber('0x' + s)`
reads it in `getAbsoluteBigIntDifference`. -/
def hexToNat (s : String) : Nat :=
  s.data.foldl (fun a c => a * 16 + hexDigitVal c) 0

/-- `getAbsoluteBigIntDifference(firstHash, secondHash)` from
`P2PCommunicationClient`: the absolute difference of the two hex strings
read as big integers. -/
def getAbsoluteBigIntDifference (firstHash secondHash : String) : Nat :=
  ((hexToNat firstHash : Int) - (hexToNat secondHash : Int)).natAbs

/-- One step of the `reduce` inside `getRelayServer`:
`prevBigInt.isLessThan(currBigInt) ? prev : curr`. -/
def pickMin (d : String → Nat) (prev curr : String) : String :=
  if d prev < d curr then prev else curr

/-- The `reduce` of `getRelayServer`: fold `pickMin` over the whole server
list, starting from its first element (the `Promise.resolve` initial value).
Empty server lists give `none` (`this.KNOWN_RELAY_SERVERS[0]` would be
`undefined`; the constructor guarantees a non-empty list). -/
def selectMinServer (d : String → Nat) : List String → Option String
  | [] => none
  | s0 :: rest => some ((s0 :: rest).foldl (pickMin d) s0)

/-- `getRelayServer(publicKeyHash, nonce)` from `P2PCommunicationClient`,
with the external `getHexHash` primitive passed as `gh`.  For each candidate
server the distance to the local hash is
`|hash - gh(server + nonce)|` over big integers, and the reduce keeps the
smaller side. -/
def getRelayServer (gh : String → String) (servers : List String)
    (hash nonce : String) : Option String :=
  selectMinServer (fun s => getAbsoluteBigIntDifference hash (gh (s ++ nonce))) servers

/-- Lookup in a JavaScript object used as a string-keyed map
(`roomIds[recipient]`). -/
def alistLookup {α : Type} : List (String × α) → String → Option α
  | [], _ => none
  | e :: rest, k => if e.1 = k then some e.2 else alistLookup rest k

/-- Property assignment on a JavaScript object (`roomIds[recipient] = id`):
replace the binding when the key exists, otherwise add it. -/
def alistSet {α : Type} (l : List (String × α)) (k : String) (v : α) :
    List (String × α) :=
  match alistLookup l k with
  | some _ => l.map (fun e => if e.1 = k then (k, v) else e)
  | none => l ++ [(k, v)]

/-- `deleteRoomIdFromRooms(roomId)` from `P2PCommunicationClient`: rebuild
the `peer-room-ids` object keeping exactly the entries whose value differs
from `roomId` (`Object.entries(...).filter((entry) => entry[1] !== roomId)`
re-reduced into an object). -/
def deleteRoomIdFromRooms : List (String × String) → String → List (String × String)
  | [], _ => []
  | e :: rest, roomId =>
    if e.2 = roomId then deleteRoomIdFromRooms rest roomId
    else e :: deleteRoomIdFromRooms rest roomId

/-- Outcome of one `client.sendTextMessage` call, as `sendMessage`
discriminates it: success, an error with `errcode === 'M_FORBIDDEN'`, or any
other error. -/
inductive SendOutcome
  | ok
  | forbidden
  | otherError
deriving DecidableEq

/-- Environment of one `sendMessage` call: the secretbox encryption under
the derived `sharedTx` key (external crypto), the room produced by
`getRelevantJoinedRoom` when no binding is cached (joined-room scan /
standby room / `createTrustedPrivateRoom`, all behind the Matrix client),
and the outcomes of the first and of the retry `sendTextMessage`. -/
structure SendModel where
  encrypt : String → String
  fresh : List (String × String) → String → String
  outcome1 : SendOutcome
  outcome2 : SendOutcome

/-- `getRelevantRoom(recipient)` from `P2PCommunicationClient`: use the
cached `peer-room-ids` binding when present; otherwise resolve a room via
`getRelevantJoinedRoom` (abstracted as `m.fresh`), cache it, and persist the
updated map.  Returns the room id and the resulting persisted map. -/
def getRelevantRoom (m : SendModel) (roomIds : List (String × String))
    (recipient : String) : String × List (String × String) :=
  match alistLookup roomIds recipient with
  | some roomId => (roomId, roomIds)
  | none =>
    let roomId := m.fresh roomIds recipient
    (roomId, alistSet roomIds recipient roomId)

/-- Observable result of `sendMessage`: the `sendTextMessage` calls
attempted in order (room id, text), the final persisted `peer-room-ids`
map, and the error surfaced to the caller, if any. -/
structure SendMessageResult where
  sends : List (String × String)
  roomIds : List (String × String)
  surfaced : Option String

/-- `sendMessage(message, peer)` from `P2PCommunicationClient`, restricted
to its room-routing and send behaviour: encrypt once, resolve a room, send;
on `M_FORBIDDEN` delete every binding to the failed room, resolve a fresh
room and send the same encrypted text once more, logging (not surfacing)
any retry error; other errors are only logged.  No error ever reaches the
caller because the send promise chain is not awaited. -/
def sendMessage (m : SendModel) (roomIds : List (String × String))
    (recipient message : String) : SendMessageResult :=
  let encryptedMessage := m.encrypt message
  let resolved := getRelevantRoom m roomIds recipient
  match m.outcome1 with
  | .forbidden =>
    let cleaned := deleteRoomIdFromRooms resolved.2 resolved.1
    let resolved2 := getRelevantRoom m cleaned recipient
    { sends := [(resolved.1, encryptedMessage), (resolved2.1, encryptedMessage)]
      roomIds := resolved2.2
      surfaced := none }
  | _ =>
    { sends := [(resolved.1, encryptedMessage)]
      roomIds := resolved.2
      surfaced := none }

/-- Result of `waitForJoin`: either the room reached two members (after
sleeping `waitedMs` milliseconds in total), or the retry counter ran out at
`afterTries` and the `No one joined after ... tries.` error is thrown,
again after `waitedMs` of sleeping. -/
inductive WaitResult
  | joined (waitedMs : Nat)
  | timedOut (afterTries : Nat) (waitedMs : Nat)
deriving DecidableEq

/-- The `setTimeout` delay of one `waitForJoin` poll:
`100 * (retry > 50 ? 10 : 1)` milliseconds. -/
def waitDelay (retry : Nat) : Nat :=
  100 * (if 50 < retry then 10 else 1)

/-- `waitForJoin(roomId, retry)` from `P2PCommunicationClient`, with the
member count reported by `getRoomById` at each poll given by the schedule
`members`, and the recursion driven by the fuel `remaining = 201 - retry`
(the code recurses only while `retry <= 200`).  The member check runs
before the retry bound, matching the source. -/
def waitForJoinAux (members : Nat → Nat) : Nat → Nat → WaitResult
  | 0, retry =>
    if 2 ≤ members retry then .joined 0 else .timedOut retry 0
  | r + 1, retry =>
    if 2 ≤ members retry then .joined 0
    else
      match waitForJoinAux members r (retry + 1) with
      | .joined d => .joined (waitDelay retry + d)
      | .timedOut n d => .timedOut n (waitDelay retry + d)

/-- `waitForJoin(roomId, retry)`: the fuel `201 - retry` makes the
structural recursion of `waitForJoinAux` coincide with the source's
`retry <= 200` bound. -/
def waitForJoin (members : Nat → Nat) (retry : Nat) : WaitResult :=
  waitForJoinAux members (201 - retry) retry

/-- Total sleep of `remaining` consecutive polls starting at `retry`. -/
def totalWaitFrom : Nat → Nat → Nat
  | 0, _ => 0
  | r + 1, retry => waitDelay retry + totalWaitFrom r (retry + 1)

/-- Status of a Matrix room, `MatrixRoomStatus` from `models/MatrixRoom`. -/
inductive MatrixRoomStatus
  | unknown
  | joined
  | invited
  | left
deriving DecidableEq

/-- A Matrix room as the state store holds it: id, status, member list and
transient message list. -/
structure MatrixRoom where
  id : String
  status : MatrixRoomStatus
  members : List String
  messages : List String
deriving DecidableEq

/-- Order-preserving union of two lists, old side first. -/
def listUnion (old new : List String) : List String :=
  old ++ new.filter (fun x => decide (¬ x ∈ old))

/-- Modelled from the spec: `MatrixRoom.merge` is not under `src/` (only
its caller `MatrixClientStore.mergeRooms` is); per the spec, merging a new
room over the prior snapshot "takes the newer status and unions
members/messages, preserving history from the prior snapshot"; with no
prior room the new room is used as is. -/
def MatrixRoom.merge (newRoom : MatrixRoom) : Option MatrixRoom → MatrixRoom
  | none => newRoom
  | some oldRoom =>
    { id := newRoom.id
      status := newRoom.status
      members := listUnion oldRoom.members newRoom.members
      messages := listUnion oldRoom.messages newRoom.messages }

/-- `MatrixState` from `MatrixClientStore`: the in-memory client state,
with the `rooms` record embedded as an association list. -/
structure MatrixState where
  isRunning : Bool
  userId : Option String
  deviceId : Option String
  txnNo : Nat
  accessToken : Option String
  syncToken : Option String
  pollingTimeout : Option Nat
  pollingRetries : Nat
  rooms : List (String × MatrixRoom)
deriving DecidableEq

/-- `Partial<MatrixStateUpdate>`: every field may be absent (or
`undefined`, which behaves identically in `setState` and
`Object.entries`-based filtering); `rooms` comes as a list. -/
structure MatrixStateUpdate where
  isRunning : Option Bool := none
  userId : Option String := none
  deviceId : Option String := none
  txnNo : Option Nat := none
  accessToken : Option String := none
  syncToken : Option String := none
  pollingTimeout : Option Nat := none
  pollingRetries : Option Nat := none
  rooms : Option (List MatrixRoom) := none

/-- JavaScript `p || s` for a boolean update field. -/
def jsOrBool (p : Option Bool) (s : Bool) : Bool :=
  match p with
  | some true => true
  | some false => s
  | none => s

/-- JavaScript `p || s` for an optional string field: the empty string is
falsy and keeps the prior value. -/
def jsOrStrOpt (p : Option String) (s : Option String) : Option String :=
  match p with
  | some v => if v = "" then s else some v
  | none => s

/-- JavaScript `p || s` for a numeric field: `0` is falsy. -/
def jsOrNat (p : Option Nat) (s : Nat) : Nat :=
  match p with
  | some v => if v = 0 then s else v
  | none => s

/-- JavaScript `p || s` for an optional numeric field: `0` is falsy. -/
def jsOrNatOpt (p : Option Nat) (s : Option Nat) : Option Nat :=
  match p with
  | some v => if v = 0 then s else some v
  | none => s

/-- `mergeRooms(oldRooms, newRooms)` from `MatrixClientStore`: merge each
new room by id into a copy of the old record; each per-room merge looks the
prior room up in the *old* record (`oldRooms[newRoom.id]`), as the source
does. -/
def mergeRooms (oldRooms : List (String × MatrixRoom)) :
    Option (List MatrixRoom) → List (String × MatrixRoom)
  | none => oldRooms
  | some newRooms =>
    newRooms.foldl
      (fun merged newRoom =>
        alistSet merged newRoom.id
          (MatrixRoom.merge newRoom (alistLookup oldRooms newRoom.id)))
      oldRooms

/-- `setState(partialState)` from `MatrixClientStore`: every scalar field
is `partialState.f || this.state.f`, and `rooms` goes through
`mergeRooms`. -/
def setState (s : MatrixState) (p : MatrixStateUpdate) : MatrixState :=
  { isRunning := jsOrBool p.isRunning s.isRunning
    userId := jsOrStrOpt p.userId s.userId
    deviceId := jsOrStrOpt p.deviceId s.deviceId
    txnNo := jsOrNat p.txnNo s.txnNo
    accessToken := jsOrStrOpt p.accessToken s.accessToken
    syncToken := jsOrStrOpt p.syncToken s.syncToken
    pollingTimeout := jsOrNatOpt p.pollingTimeout s.pollingTimeout
    pollingRetries := jsOrNat p.pollingRetries s.pollingRetries
    rooms := mergeRooms s.rooms p.rooms }

/-- The persisted blob: exactly the `PRESERVED_FIELDS = ['syncToken',
'rooms']` of the state, as `updateStorage` builds it. -/
structure PreservedState where
  syncToken : Option String
  rooms : List (String × MatrixRoom)
deriving DecidableEq

/-- `Boolean(value)` for an optional string: present and non-empty. -/
def truthyStrOpt : Option String → Bool
  | some v => decide (¬ v = "")
  | none => false

/-- `Boolean(value)` for an optional room list: any array is truthy. -/
def truthyRoomsOpt : Option (List MatrixRoom) → Bool
  | some _ => true
  | none => false

/-- The write condition of `updateStorage`: some entry of the update is a
preserved field (`syncToken` or `rooms`) with a truthy value. -/
def shouldPersist (p : MatrixStateUpdate) : Bool :=
  truthyStrOpt p.syncToken || truthyRoomsOpt p.rooms

/-- `prepareData(toStore)` from `MatrixClientStore`: deep-copy and clear
every room's transient `messages` list before serialization (the copy is
implicit in this pure embedding). -/
def prepareData (b : PreservedState) : PreservedState :=
  { syncToken := b.syncToken
    rooms := b.rooms.map (fun e => (e.1, { e.2 with messages := [] })) }

/-- `updateStorage(stateUpdate)` from `MatrixClientStore`: when the update
carried a truthy preserved field, write the preserved fields of the
*current* state, prepared; otherwise write nothing. -/
def updateStorage (s : MatrixState) (p : MatrixStateUpdate) : Option PreservedState :=
  if shouldPersist p then
    some (prepareData { syncToken := s.syncToken, rooms := s.rooms })
  else none

/-- `update(stateUpdate)` from `MatrixClientStore`: apply `setState`, then
`updateStorage` on the new state; returns the new state and the blob
written to storage, if any. -/
def update (s : MatrixState) (p : MatrixStateUpdate) :
    MatrixState × Option PreservedState :=
  let newState := setState s p
  (newState, updateStorage newState p)

/-- The initial in-memory state of a fresh `MatrixClientStore`. -/
def initialState : MatrixState :=
  { isRunning := false
    userId := none
    deviceId := none
    txnNo := 0
    accessToken := none
    syncToken := none
    pollingTimeout := none
    pollingRetries := 0
    rooms := [] }

/-- The parsed persisted blob as the `setState` argument of
`initFromStorage` (rooms arrive as the values of the stored record). -/
def blobToUpdate (b : PreservedState) : MatrixStateUpdate :=
  { syncToken := b.syncToken, rooms := some (b.rooms.map Prod.snd) }

/-- `initFromStorage()` from `MatrixClientStore`: hydrate the fresh store
from the persisted blob (an absent blob hydrates from `{}`). -/
def initFromStorage : Option PreservedState → MatrixState
  | some b => setState initialState (blobToUpdate b)
  | none => setState initialState {}

/-- The message of `clientNotReadyError()`. -/
def clientNotReadyMessage : String :=
  "Client not ready. Make sure to call \"start\" before you try to use it."

/-- How the entry of a `P2PCommunicationClient` method behaves before any
other effect: continue into the body, return early without effect, or
throw. -/
inductive GuardOutcome
  | proceeds
  | returnsEarly
  | throws (msg : String)
deriving DecidableEq

/-- The flags the entry guards read: whether `start()` has assigned
`this.client`, and the `isWallet` configuration flag. -/
structure P2PClientState where
  clientStarted : Bool
  isWallet : Bool

/-- The `if (!this.client) throw clientNotReadyError()` prologue. -/
def notReadyGuard (clientStarted : Bool) : GuardOutcome :=
  if clientStarted then .proceeds else .throws clientNotReadyMessage

/-- Entry of `tryJoinRooms`: client guard first. -/
def tryJoinRoomsEntry (st : P2PClientState) : GuardOutcome :=
  notReadyGuard st.clientStarted

/-- Entry of `prepareStandbyRoom`: `if (!this.isWallet) return` runs
*before* the client guard. -/
def prepareStandbyRoomEntry (st : P2PClientState) : GuardOutcome :=
  if st.isWallet = false then .returnsEarly else notReadyGuard st.clientStarted

/-- Entry of `getAndRemoveStandbyRoom`: `if (!this.isWallet) return
undefined` runs *before* the client guard. -/
def getAndRemoveStandbyRoomEntry (st : P2PClientState) : GuardOutcome :=
  if st.isWallet = false then .returnsEarly else notReadyGuard st.clientStarted

/-- Entry of `listenForEncryptedMessage`: client guard first (before the
active-listener idempotency check). -/
def listenForEncryptedMessageEntry (st : P2PClientState) : GuardOutcome :=
  notReadyGuard st.clientStarted

/-- Entry of `unsubscribeFromEncryptedMessage`: client guard first. -/
def unsubscribeFromEncryptedMessageEntry (st : P2PClientState) : GuardOutcome :=
  notReadyGuard st.clientStarted

/-- Entry of `unsubscribeFromEncryptedMessages`: client guard first. -/
def unsubscribeFromEncryptedMessagesEntry (st : P2PClientState) : GuardOutcome :=
  notReadyGuard st.clientStarted

/-- Entry of `sendMessage`: client guard first. -/
def sendMessageEntry (st : P2PClientState) : GuardOutcome :=
  notReadyGuard st.clientStarted

/-- Entry of `listenForChannelOpening`: client guard first. -/
def listenForChannelOpeningEntry (st : P2PClientState) : GuardOutcome :=
  notReadyGuard st.clientStarted

/-- Entry of `waitForJoin`: client guard first. -/
def waitForJoinEntry (st : P2PClientState) : GuardOutcome :=
  notReadyGuard st.clientStarted

/-- Entry of `sendPairingResponse`: client guard first. -/
def sendPairingResponseEntry (st : P2PClientState) : GuardOutcome :=
  notReadyGuard st.clientStarted

/-- A pairing request/response descriptor (`P2PPairingRequest` /
`P2PPairingResponse`): `version` is optional only because historical v1
requests lack it. -/
structure P2PPairingInfo where
  id : String
  type : String
  name : String
  version : Option String
  publicKey : String
  relayServer : String
  icon : Option String
  appUrl : Option String
deriving DecidableEq

/-- The configuration of a `P2PCommunicationClient`: constructor arguments
plus the derived own public-key artifacts; `gh` is the external
`getHexHash` on strings and `publicKeyHash` the hex hash of the raw public
key bytes; `beaconVersion` stands for the `BEACON_VERSION` constant, whose
defining module is not under `src/`. -/
structure P2PClientConfig where
  name : String
  publicKey : String
  publicKeyHash : String
  matrixNodes : List String
  gh : String → String
  iconUrl : Option String
  appUrl : Option String
  beaconVersion : String

/-- The built-in `KNOWN_RELAY_SERVERS` constant. -/
def knownRelayServersDefault : List String := ["matrix.papers.tech"]

/-- `this.KNOWN_RELAY_SERVERS`: the configured nodes when non-empty,
otherwise the built-in list. -/
def relayServers (cfg : P2PClientConfig) : List String :=
  if 0 < cfg.matrixNodes.length then cfg.matrixNodes else knownRelayServersDefault

/-- JavaScript `p || s` for a plain string default
(`publicKeyHash || (await getHexHash(this.keyPair.publicKey))`). -/
def jsOrStr (p : Option String) (s : String) : String :=
  match p with
  | some v => if v = "" then s else v
  | none => s

/-- The instance method `getRelayServer(publicKeyHash?, nonce = '')`:
defaults the hash to the client's own public-key hash and selects over
`this.KNOWN_RELAY_SERVERS` (never empty, hence the `getD`). -/
def clientRelayServer (cfg : P2PClientConfig) (publicKeyHash : Option String)
    (nonce : String) : String :=
  (getRelayServer cfg.gh (relayServers cfg) (jsOrStr publicKeyHash cfg.publicKeyHash)
    nonce).getD ""

/-- `if (this.iconUrl) info.icon = this.iconUrl`: the field is attached
only when configured and truthy. -/
def jsTruthyOpt : Option String → Option String
  | some u => if u = "" then none else some u
  | none => none

/-- `getPairingRequestInfo()` from `P2PCommunicationClient`, with the
freshly generated UUID passed in as `guid`.  Note the source calls
`this.getRelayServer()` with no arguments, so the nonce is the default
empty string. -/
def getPairingRequestInfo (cfg : P2PClientConfig) (guid : String) : P2PPairingInfo :=
  { id := guid
    type := "p2p-pairing-request"
    name := cfg.name
    version := some cfg.beaconVersion
    publicKey := cfg.publicKey
    relayServer := clientRelayServer cfg none ""
    icon := jsTruthyOpt cfg.iconUrl
    appUrl := jsTruthyOpt cfg.appUrl }

/-- `getPairingResponseInfo(request)` from `P2PCommunicationClient`: the
id is echoed from the request; everything else is the responder's own
data.  The nonce of the relay-server selection is again the default empty
string. -/
def getPairingResponseInfo (cfg : P2PClientConfig) (request : P2PPairingInfo) :
    P2PPairingInfo :=
  { id := request.id
    type := "p2p-pairing-response"
    name := cfg.name
    version := some cfg.beaconVersion
    publicKey := cfg.publicKey
    relayServer := clientRelayServer cfg none ""
    icon := jsTruthyOpt cfg.iconUrl
    appUrl := jsTruthyOpt cfg.appUrl }

/-- The plaintext `sendPairingResponse` seals into the
`@channel-open:<recipient>:<hex(sealed)>` text: the raw public key for a
v1 request (no `version`), else the JSON of `getPairingResponseInfo`
(kept as the structured value here; JSON serialization and the sealed box
are external). -/
def sendPairingResponsePayload (cfg : P2PClientConfig) (request : P2PPairingInfo) :
    Sum String P2PPairingInfo :=
  match request.version with
  | none => Sum.inl cfg.publicKey
  | some _ => Sum.inr (getPairingResponseInfo cfg request)

/-- `sendPairingResponse(pairingRequest)` reduced to its control flow
around `waitForJoin`: the member wait runs before the message is built and
sent, and its timeout error propagates to the caller (the `await` is not
wrapped in any catch). -/
def sendPairingResponseRun (cfg : P2PClientConfig) (members : Nat → Nat)
    (request : P2PPairingInfo) : Except String (Sum String P2PPairingInfo) :=
  match waitForJoin members 0 with
  | .timedOut n _ => .error ("No one joined after " ++ toString n ++ " tries.")
  | .joined _ => .ok (sendPairingResponsePayload cfg request)

/-- Concrete client configuration exhibiting the C7 discrepancies: two
servers whose hashes make the empty-nonce and `"0"`-nonce selections
differ. -/
def cfg0 : P2PClientConfig :=
  { name := "app"
    publicKey := "aa"
    publicKeyHash := "0"
    matrixNodes := ["a", "b"]
    gh := fun s => if s = "a" then "0" else if s = "b0" then "0" else "ff"
    iconUrl := none
    appUrl := none
    beaconVersion := "2" }

theorem pickMin_le_left (d : String → Nat) (b x : String) :
    d (pickMin d b x) ≤ d b := by
  unfold pickMin
  split
  · exact le_refl _
  · exact Nat.le_of_not_lt (by assumption)

theorem pickMin_le_right (d : String → Nat) (b x : String) :
    d (pickMin d b x) ≤ d x := by
  unfold pickMin
  split
  · exact Nat.le_of_lt (by assumption)
  · exact le_refl _

theorem foldl_pickMin_le (d : String → Nat) (l : List String) (b : String) :
    d (l.foldl (pickMin d) b) ≤ d b ∧ ∀ s ∈ l, d (l.foldl (pickMin d) b) ≤ d s := by
  induction l generalizing b with
  | nil => exact ⟨le_refl _, by simp⟩
  | cons x xs ih =>
    have h := ih (pickMin d b x)
    rw [List.foldl_cons]
    refine ⟨le_trans h.1 (pickMin_le_left d b x), ?_⟩
    intro s hs
    rcases List.mem_cons.mp hs with rfl | hs
    · exact le_trans h.1 (pickMin_le_right d b s)
    · exact h.2 s hs

theorem pickMin_pos {d : String → Nat} {b x : String} (h : d b < d x) :
    pickMin d b x = b := by
  unfold pickMin; exact if_pos h

theorem pickMin_neg {d : String → Nat} {b x : String} (h : ¬ d b < d x) :
    pickMin d b x = x := by
  unfold pickMin; exact if_neg h

theorem foldl_pickMin_last (d : String → Nat) (l : List String) (b : String) :
    (l.foldl (pickMin d) b = b ∧ ∀ s ∈ l, d b < d s) ∨
    (∃ l1 l2, l = l1 ++ l.foldl (pickMin d) b :: l2 ∧
      ∀ s ∈ l2, d (l.foldl (pickMin d) b) < d s) := by
  induction l generalizing b with
  | nil => exact Or.inl ⟨rfl, by simp⟩
  | cons x xs ih =>
    rw [List.foldl_cons]
    rcases ih (pickMin d b x) with ⟨heq, hall⟩ | ⟨l1, l2, hsplit, hlt⟩
    · rw [heq]
      by_cases hbx : d b < d x
      · rw [pickMin_pos hbx] at hall ⊢
        left
        refine ⟨rfl, ?_⟩
        intro s hs
        rcases List.mem_cons.mp hs with rfl | hs
        · exact hbx
        · exact hall s hs
      · rw [pickMin_neg hbx] at hall ⊢
        right
        exact ⟨[], xs, rfl, hall⟩
    · right
      exact ⟨x :: l1, l2, by rw [List.cons_append, ← hsplit], hlt⟩

theorem foldl_pickMin_mem (d : String → Nat) (l : List String) (b : String) :
    l.foldl (pickMin d) b ∈ b :: l := by
  rcases foldl_pickMin_last d l b with ⟨heq, _⟩ | ⟨l1, l2, hsplit, _⟩
  · rw [heq]; exact List.mem_cons_self _ _
  · refine List.mem_cons_of_mem _ ?_
    have hin : l.foldl (pickMin d) b ∈ l1 ++ l.foldl (pickMin d) b :: l2 :=
      List.mem_append_right l1 (List.mem_cons_self _ _)
    rwa [← hsplit] at hin

/-- C1: for every non-empty server list, hash-function, hash and nonce,
`getRelayServer` returns an element of the server list minimizing the
absolute big-integer difference `|hash - gh(server + nonce)|`; the function
is pure, so identical inputs trivially give identical results; and with the
singleton list `["matrix.papers.tech"]` every hash yields
`"matrix.papers.tech"`. -/
theorem getRelayServer_min_correct (gh : String → String) (servers : List String)
    (hash nonce : String) (hne : servers ≠ []) :
    (∃ r, getRelayServer gh servers hash nonce = some r ∧ r ∈ servers ∧
      ∀ s ∈ servers, getAbsoluteBigIntDifference hash (gh (r ++ nonce)) ≤
        getAbsoluteBigIntDifference hash (gh (s ++ nonce))) ∧
    (∀ h2 n2, getRelayServer gh ["matrix.papers.tech"] h2 n2 =
      some "matrix.papers.tech") := by
  constructor
  · obtain ⟨s0, rest, rfl⟩ := List.exists_cons_of_ne_nil hne
    refine ⟨(s0 :: rest).foldl
      (pickMin (fun s => getAbsoluteBigIntDifference hash (gh (s ++ nonce)))) s0,
      rfl, ?_, ?_⟩
    · have hmem := foldl_pickMin_mem
        (fun s => getAbsoluteBigIntDifference hash (gh (s ++ nonce))) (s0 :: rest) s0
      rcases List.mem_cons.mp hmem with heq | hmem
      · rw [heq]; exact List.mem_cons_self _ _
      · exact hmem
    · intro s hs
      exact (foldl_pickMin_le
        (fun s => getAbsoluteBigIntDifference hash (gh (s ++ nonce))) (s0 :: rest) s0).2 s hs
  · intro h2 n2
    show some _ = some _
    unfold List.foldl pickMin
    split <;> rfl

/-- Witness for C1 at a concrete input. -/
theorem getRelayServer_min_correct_witness :
    (∃ r, getRelayServer (fun s => s) ["a", "bb"] "0" "" = some r ∧ r ∈ ["a", "bb"] ∧
      ∀ s ∈ ["a", "bb"], getAbsoluteBigIntDifference "0" ((fun s => s) (r ++ "")) ≤
        getAbsoluteBigIntDifference "0" ((fun s => s) (s ++ ""))) ∧
    (∀ h2 n2, getRelayServer (fun s => s) ["matrix.papers.tech"] h2 n2 =
      some "matrix.papers.tech") :=
  getRelayServer_min_correct (fun s => s) ["a", "bb"] "0" "" (by decide)

/-- C2 counterexample: with servers `["a", "b"]` and a constant hash
function both servers tie for the minimal distance, yet `getRelayServer`
returns the later server `"b"`, not the earlier `"a"` the claim demands. -/
theorem getRelayServer_tie_counterexample :
    getAbsoluteBigIntDifference "0" ((fun _ => "0") ("a" ++ "")) =
      getAbsoluteBigIntDifference "0" ((fun _ => "0") ("b" ++ "")) ∧
    getRelayServer (fun _ => "0") ["a", "b"] "0" "" = some "b" ∧
    getRelayServer (fun _ => "0") ["a", "b"] "0" "" ≠ some "a" := by
  refine ⟨rfl, by decide, by decide⟩

/-- C2 amended: on a tie the reduction replaces the previous best, so
`getRelayServer` returns the server appearing *latest* in the list among
those attaining the minimal distance: the returned server splits the list
so that every server after it lies strictly farther from the hash. -/
theorem getRelayServer_tie_last (gh : String → String) (servers : List String)
    (hash nonce : String) (hne : servers ≠ []) :
    ∃ r l1 l2, getRelayServer gh servers hash nonce = some r ∧
      servers = l1 ++ r :: l2 ∧
      (∀ s ∈ servers, getAbsoluteBigIntDifference hash (gh (r ++ nonce)) ≤
        getAbsoluteBigIntDifference hash (gh (s ++ nonce))) ∧
      (∀ s ∈ l2, getAbsoluteBigIntDifference hash (gh (r ++ nonce)) <
        getAbsoluteBigIntDifference hash (gh (s ++ nonce))) := by
  obtain ⟨s0, rest, rfl⟩ := List.exists_cons_of_ne_nil hne
  set d := fun s => getAbsoluteBigIntDifference hash (gh (s ++ nonce)) with hd
  refine ⟨(s0 :: rest).foldl (pickMin d) s0, ?_⟩
  rcases foldl_pickMin_last d (s0 :: rest) s0 with ⟨heq, hall⟩ | ⟨l1, l2, hsplit, hlt⟩
  · exact absurd (heq ▸ hall s0 (List.mem_cons_self _ _)) (lt_irrefl _)
  · exact ⟨l1, l2, rfl, hsplit,
      fun s hs => (foldl_pickMin_le d (s0 :: rest) s0).2 s hs, hlt⟩

/-- Witness for the amended C2 theorem at a concrete input. -/
theorem getRelayServer_tie_last_witness :
    ∃ r l1 l2, getRelayServer (fun _ => "0") ["a", "b"] "0" "" = some r ∧
      ["a", "b"] = l1 ++ r :: l2 ∧
      (∀ s ∈ ["a", "b"], getAbsoluteBigIntDifference "0" ((fun _ => "0") (r ++ "")) ≤
        getAbsoluteBigIntDifference "0" ((fun _ => "0") (s ++ ""))) ∧
      (∀ s ∈ l2, getAbsoluteBigIntDifference "0" ((fun _ => "0") (r ++ "")) <
        getAbsoluteBigIntDifference "0" ((fun _ => "0") (s ++ ""))) :=
  getRelayServer_tie_last (fun _ => "0") ["a", "b"] "0" "" (by decide)

theorem alistLookup_eq_none_iff {α : Type} {l : List (String × α)} {k : String} :
    alistLookup l k = none ↔ k ∉ l.map Prod.fst := by
  induction l with
  | nil => simp [alistLookup]
  | cons e rest ih =>
    rw [alistLookup, List.map_cons, List.mem_cons]
    by_cases hk : e.1 = k
    · rw [if_pos hk]
      simp [hk.symm]
    · rw [if_neg hk, ih]
      have : ¬ k = e.1 := fun h => hk h.symm
      simp [this]

theorem alistLookup_delete_of_none {l : List (String × String)} {k rid : String}
    (h : alistLookup l k = none) :
    alistLookup (deleteRoomIdFromRooms l rid) k = none := by
  induction l with
  | nil => rfl
  | cons e rest ih =>
    rw [alistLookup] at h
    by_cases hk : e.1 = k
    · rw [if_pos hk] at h
      exact absurd h (by simp)
    · rw [if_neg hk] at h
      rw [deleteRoomIdFromRooms]
      by_cases he : e.2 = rid
      · rw [if_pos he]; exact ih h
      · rw [if_neg he, alistLookup, if_neg hk]; exact ih h

theorem alistLookup_delete_of_some_eq {l : List (String × String)} {k rid : String}
    (hnd : (l.map Prod.fst).Nodup) (h : alistLookup l k = some rid) :
    alistLookup (deleteRoomIdFromRooms l rid) k = none := by
  induction l with
  | nil => simp [alistLookup] at h
  | cons e rest ih =>
    rw [List.map_cons, List.nodup_cons] at hnd
    by_cases hk : e.1 = k
    · rw [alistLookup, if_pos hk] at h
      injection h with h2
      rw [deleteRoomIdFromRooms, if_pos h2]
      have hnk : alistLookup rest k = none :=
        alistLookup_eq_none_iff.mpr (hk ▸ hnd.1)
      exact alistLookup_delete_of_none hnk
    · rw [alistLookup, if_neg hk] at h
      rw [deleteRoomIdFromRooms]
      by_cases he : e.2 = rid
      · rw [if_pos he]; exact ih hnd.2 h
      · rw [if_neg he, alistLookup, if_neg hk]; exact ih hnd.2 h

theorem alistLookup_delete_of_some_ne {l : List (String × String)} {k v rid : String}
    (h : alistLookup l k = some v) (hne : v ≠ rid) :
    alistLookup (deleteRoomIdFromRooms l rid) k = some v := by
  induction l with
  | nil => simp [alistLookup] at h
  | cons e rest ih =>
    rw [alistLookup] at h
    rw [deleteRoomIdFromRooms]
    by_cases hk : e.1 = k
    · rw [if_pos hk] at h
      injection h with h2
      have he : e.2 ≠ rid := by rw [h2]; exact hne
      rw [if_neg he, alistLookup, if_pos hk, h2]
    · rw [if_neg hk] at h
      by_cases he : e.2 = rid
      · rw [if_pos he]; exact ih h
      · rw [if_neg he, alistLookup, if_neg hk]; exact ih h

theorem alistSet_keys_nodup {α : Type} {l : List (String × α)} {k : String} {v : α}
    (h : (l.map Prod.fst).Nodup) : ((alistSet l k v).map Prod.fst).Nodup := by
  unfold alistSet
  cases hl : alistLookup l k with
  | some w =>
    have hkeys : (l.map (fun e => if e.1 = k then (k, v) else e)).map Prod.fst =
        l.map Prod.fst := by
      rw [List.map_map]
      apply List.map_congr_left
      intro e _
      by_cases he : e.1 = k
      · simp [he]
      · simp [he]
    rw [hkeys]
    exact h
  | none =>
    have hk : k ∉ l.map Prod.fst := alistLookup_eq_none_iff.mp hl
    rw [List.map_append]
    simp [List.nodup_append, h, hk]

theorem getRelevantRoom_keys_nodup (m : SendModel) (roomIds : List (String × String))
    (recipient : String) (h : (roomIds.map Prod.fst).Nodup) :
    (((getRelevantRoom m roomIds recipient).2).map Prod.fst).Nodup := by
  unfold getRelevantRoom
  cases hl : alistLookup roomIds recipient with
  | some rid => exact h
  | none => exact alistSet_keys_nodup h

/-- C3: when the first `sendTextMessage` of `sendMessage` fails with
`M_FORBIDDEN`, every binding of the persisted `peer-room-ids` map whose
value is the failed room id is removed and the other bindings are kept, a
fresh room is resolved for the recipient, exactly one retry send of the
same encrypted message is attempted (two sends in all), and no error — in
particular no retry error — is surfaced to the caller. -/
theorem sendMessage_forbidden_recovery (m : SendModel) (roomIds : List (String × String))
    (recipient message : String)
    (hnd : (roomIds.map Prod.fst).Nodup)
    (hforb : m.outcome1 = SendOutcome.forbidden) :
    ∃ r1 ids1 r2,
      getRelevantRoom m roomIds recipient = (r1, ids1) ∧
      r2 = (getRelevantRoom m (deleteRoomIdFromRooms ids1 r1) recipient).1 ∧
      (sendMessage m roomIds recipient message).sends =
        [(r1, m.encrypt message), (r2, m.encrypt message)] ∧
      (sendMessage m roomIds recipient message).surfaced = none ∧
      (∀ k, alistLookup ids1 k = some r1 →
        alistLookup (deleteRoomIdFromRooms ids1 r1) k = none) ∧
      (∀ k v, alistLookup ids1 k = some v → v ≠ r1 →
        alistLookup (deleteRoomIdFromRooms ids1 r1) k = some v) ∧
      (sendMessage m roomIds recipient message).roomIds =
        (getRelevantRoom m (deleteRoomIdFromRooms ids1 r1) recipient).2 := by
  have hnd1 := getRelevantRoom_keys_nodup m roomIds recipient hnd
  refine ⟨(getRelevantRoom m roomIds recipient).1,
    (getRelevantRoom m roomIds recipient).2, _, rfl, rfl, ?_, ?_, ?_, ?_, ?_⟩
  · simp only [sendMessage, hforb]
  · simp only [sendMessage, hforb]
  · intro k hk
    exact alistLookup_delete_of_some_eq hnd1 hk
  · intro k v hk hv
    exact alistLookup_delete_of_some_ne hk hv
  · simp only [sendMessage, hforb]

/-- Witness for C3 at a concrete input: two cached peers share the failed
room `roomX`, a third is bound to `roomZ`. -/
theorem sendMessage_forbidden_recovery_witness :
    ∃ r1 ids1 r2,
      getRelevantRoom ⟨fun s => s ++ "!", fun _ _ => "roomY",
          SendOutcome.forbidden, SendOutcome.ok⟩
        [("alice", "roomX"), ("bob", "roomX"), ("carol", "roomZ")] "alice" = (r1, ids1) ∧
      r2 = (getRelevantRoom ⟨fun s => s ++ "!", fun _ _ => "roomY",
          SendOutcome.forbidden, SendOutcome.ok⟩
        (deleteRoomIdFromRooms ids1 r1) "alice").1 ∧
      (sendMessage ⟨fun s => s ++ "!", fun _ _ => "roomY",
          SendOutcome.forbidden, SendOutcome.ok⟩
        [("alice", "roomX"), ("bob", "roomX"), ("carol", "roomZ")] "alice" "hi").sends =
        [(r1, "hi" ++ "!"), (r2, "hi" ++ "!")] ∧
      (sendMessage ⟨fun s => s ++ "!", fun _ _ => "roomY",
          SendOutcome.forbidden, SendOutcome.ok⟩
        [("alice", "roomX"), ("bob", "roomX"), ("carol", "roomZ")] "alice" "hi").surfaced =
        none ∧
      (∀ k, alistLookup ids1 k = some r1 →
        alistLookup (deleteRoomIdFromRooms ids1 r1) k = none) ∧
      (∀ k v, alistLookup ids1 k = some v → v ≠ r1 →
        alistLookup (deleteRoomIdFromRooms ids1 r1) k = some v) ∧
      (sendMessage ⟨fun s => s ++ "!", fun _ _ => "roomY",
          SendOutcome.forbidden, SendOutcome.ok⟩
        [("alice", "roomX"), ("bob", "roomX"), ("carol", "roomZ")] "alice" "hi").roomIds =
        (getRelevantRoom ⟨fun s => s ++ "!", fun _ _ => "roomY",
          SendOutcome.forbidden, SendOutcome.ok⟩
        (deleteRoomIdFromRooms ids1 r1) "alice").2 :=
  sendMessage_forbidden_recovery
    ⟨fun s => s ++ "!", fun _ _ => "roomY", SendOutcome.forbidden, SendOutcome.ok⟩
    [("alice", "roomX"), ("bob", "roomX"), ("carol", "roomZ")] "alice" "hi"
    (by decide) rfl

theorem waitForJoinAux_never (members : Nat → Nat) (h : ∀ t, members t < 2) :
    ∀ rem retry, waitForJoinAux members rem retry =
      WaitResult.timedOut (retry + rem) (totalWaitFrom rem retry) := by
  intro rem
  induction rem with
  | zero =>
    intro retry
    simp only [waitForJoinAux, if_neg (Nat.not_le.mpr (h retry)), totalWaitFrom]
    rw [Nat.add_zero]
  | succ r ih =>
    intro retry
    simp only [waitForJoinAux, if_neg (Nat.not_le.mpr (h retry)), ih (retry + 1),
      totalWaitFrom]
    congr 1
    omega

theorem waitForJoin_never (members : Nat → Nat) (h : ∀ t, members t < 2) :
    waitForJoin members 0 = WaitResult.timedOut 201 155100 := by
  have h0 : waitForJoin members 0 = waitForJoinAux members 201 0 := rfl
  rw [h0, waitForJoinAux_never members h 201 0]
  have h1 : (0 : Nat) + 201 = 201 := by omega
  have h2 : totalWaitFrom 201 0 = 155100 := by decide
  rw [h1, h2]

/-- C4 amended: `waitForJoin` returns as soon as the room reports at least
two members; it polls at 100 ms for `retry <= 50` (~5 s) and 1000 ms
thereafter; once the retry counter exceeds 200 it throws, and the timeout
propagates out of `sendPairingResponse` to the caller; the worst-case
aggregate wait is 155100 ms (51 polls at 100 ms plus 150 at 1000 ms),
about 155 s rather than the ~30 s the spec states. -/
theorem waitForJoin_spec (members : Nat → Nat) (retry : Nat) :
    (2 ≤ members retry → waitForJoin members retry = WaitResult.joined 0) ∧
    (200 < retry → members retry < 2 →
      waitForJoin members retry = WaitResult.timedOut retry 0) ∧
    (retry ≤ 50 → waitDelay retry = 100) ∧
    (50 < retry → waitDelay retry = 1000) ∧
    ((∀ t, members t < 2) → waitForJoin members 0 = WaitResult.timedOut 201 155100) ∧
    ((∀ t, members t < 2) → ∀ cfg request, ∃ e,
      sendPairingResponseRun cfg members request = Except.error e) := by
  refine ⟨?_, ?_, ?_, ?_, waitForJoin_never members, ?_⟩
  · intro h2
    unfold waitForJoin
    cases 201 - retry <;> simp only [waitForJoinAux, if_pos h2]
  · intro hgt hlt
    unfold waitForJoin
    have hz : 201 - retry = 0 := by omega
    rw [hz]
    simp only [waitForJoinAux, if_neg (Nat.not_le.mpr hlt)]
  · intro hle
    unfold waitDelay
    rw [if_neg (by omega)]
  · intro hgt
    unfold waitDelay
    rw [if_pos hgt]
  · intro h cfg request
    unfold sendPairingResponseRun
    rw [waitForJoin_never members h]
    exact ⟨_, rfl⟩

/-- Witness for the amended C4 theorem at concrete member schedules. -/
theorem waitForJoin_spec_witness :
    waitForJoin (fun _ => 2) 0 = WaitResult.joined 0 ∧
    waitForJoin (fun _ => 0) 300 = WaitResult.timedOut 300 0 ∧
    waitDelay 0 = 100 ∧
    waitDelay 51 = 1000 ∧
    waitForJoin (fun _ => 0) 0 = WaitResult.timedOut 201 155100 ∧
    (∃ e, sendPairingResponseRun cfg0 (fun _ => 0)
      (getPairingRequestInfo cfg0 "g") = Except.error e) :=
  ⟨(waitForJoin_spec (fun _ => 2) 0).1 (by decide),
   (waitForJoin_spec (fun _ => 0) 300).2.1 (by decide) (by decide),
   (waitForJoin_spec (fun _ => 0) 0).2.2.1 (by decide),
   (waitForJoin_spec (fun _ => 0) 51).2.2.2.1 (by decide),
   (waitForJoin_spec (fun _ => 0) 0).2.2.2.2.1 (fun _ => by decide),
   (waitForJoin_spec (fun _ => 0) 0).2.2.2.2.2 (fun _ => by decide) cfg0
     (getPairingRequestInfo cfg0 "g")⟩

/-- C4 counterexample: when no one ever joins, the polls sleep 155100 ms
in total — 51 polls at 100 ms plus 150 at 1000 ms — exceeding the ~30 s
aggregate bound of the claim by more than a factor of five. -/
theorem waitForJoin_aggregate_counterexample :
    waitForJoin (fun _ => 0) 0 = WaitResult.timedOut 201 155100 ∧
    2 * 30000 < 155100 :=
  ⟨by decide, by decide⟩

theorem shouldPersist_eq_true_iff (p : MatrixStateUpdate) :
    shouldPersist p = true ↔
      (∃ t, p.syncToken = some t ∧ t ≠ "") ∨ ∃ rs, p.rooms = some rs := by
  cases hst : p.syncToken with
  | none =>
    cases hrm : p.rooms <;>
      simp [shouldPersist, truthyStrOpt, truthyRoomsOpt, hst, hrm]
  | some t =>
    cases hrm : p.rooms <;>
      simp [shouldPersist, truthyStrOpt, truthyRoomsOpt, hst, hrm]

/-- C5: an `update` writes to persistent storage iff the update itself
carried `syncToken` or `rooms` with a truthy value, and the written blob
holds exactly the preserved fields `{syncToken, rooms}`: rehydrating a
written blob into a fresh store leaves every other field at its default,
so no other field survives a store round-trip. -/
theorem update_persistence_policy (s : MatrixState) (p : MatrixStateUpdate) :
    ((update s p).2 ≠ none ↔
      (∃ t, p.syncToken = some t ∧ t ≠ "") ∨ ∃ rs, p.rooms = some rs) ∧
    ∀ b, (update s p).2 = some b →
      (initFromStorage (some b)).isRunning = false ∧
      (initFromStorage (some b)).userId = none ∧
      (initFromStorage (some b)).deviceId = none ∧
      (initFromStorage (some b)).txnNo = 0 ∧
      (initFromStorage (some b)).accessToken = none ∧
      (initFromStorage (some b)).pollingTimeout = none ∧
      (initFromStorage (some b)).pollingRetries = 0 := by
  constructor
  · rw [← shouldPersist_eq_true_iff]
    show updateStorage (setState s p) p ≠ none ↔ _
    unfold updateStorage
    by_cases h : shouldPersist p = true
    · simp [h]
    · simp [h]
  · intro b _
    exact ⟨rfl, rfl, rfl, rfl, rfl, rfl, rfl⟩

/-- Witness for C5 at a concrete update carrying a truthy sync token. -/
theorem update_persistence_policy_witness :
    (update initialState { syncToken := some "tok" }).2 ≠ none ∧
    (initFromStorage (some (PreservedState.mk (some "tok") []))).isRunning = false ∧
    (initFromStorage (some (PreservedState.mk (some "tok") []))).txnNo = 0 ∧
    (initFromStorage (some (PreservedState.mk (some "tok") []))).pollingRetries = 0 :=
  ⟨(update_persistence_policy initialState { syncToken := some "tok" }).1.mpr
      (Or.inl ⟨"tok", rfl, by decide⟩),
   ((update_persistence_policy initialState { syncToken := some "tok" }).2
      (PreservedState.mk (some "tok") []) rfl).1,
   ((update_persistence_policy initialState { syncToken := some "tok" }).2
      (PreservedState.mk (some "tok") []) rfl).2.2.2.1,
   ((update_persistence_policy initialState { syncToken := some "tok" }).2
      (PreservedState.mk (some "tok") []) rfl).2.2.2.2.2.2⟩

theorem mem_alistSet {α : Type} {l : List (String × α)} {k : String} {v : α}
    {e : String × α} (h : e ∈ alistSet l k v) : e = (k, v) ∨ e ∈ l := by
  unfold alistSet at h
  cases hl : alistLookup l k with
  | some w =>
    rw [hl] at h
    obtain ⟨a, ha, hfa⟩ := List.mem_map.mp h
    by_cases hk : a.1 = k
    · rw [if_pos hk] at hfa
      exact Or.inl hfa.symm
    · rw [if_neg hk] at hfa
      exact Or.inr (hfa ▸ ha)
  | none =>
    rw [hl] at h
    rcases List.mem_append.mp h with h | h
    · exact Or.inr h
    · exact Or.inl (List.mem_singleton.mp h)

theorem alistLookup_append_self {α : Type} {l : List (String × α)} {k : String} {v : α}
    (h : alistLookup l k = none) : alistLookup (l ++ [(k, v)]) k = some v := by
  induction l with
  | nil => simp [alistLookup]
  | cons e rest ih =>
    rw [alistLookup] at h
    by_cases hk : e.1 = k
    · rw [if_pos hk] at h
      exact absurd h (by simp)
    · rw [if_neg hk] at h
      rw [List.cons_append, alistLookup, if_neg hk]
      exact ih h

theorem alistLookup_map_set {α : Type} {l : List (String × α)} {k : String} {v w : α}
    (h : alistLookup l k = some w) :
    alistLookup (l.map (fun e => if e.1 = k then (k, v) else e)) k = some v := by
  induction l with
  | nil => simp [alistLookup] at h
  | cons e rest ih =>
    rw [alistLookup] at h
    rw [List.map_cons]
    by_cases hk : e.1 = k
    · rw [if_pos hk]
      simp [alistLookup]
    · rw [if_neg hk] at h ⊢
      rw [alistLookup, if_neg hk]
      exact ih h

theorem alistLookup_alistSet_self {α : Type} (l : List (String × α)) (k : String) (v : α) :
    alistLookup (alistSet l k v) k = some v := by
  unfold alistSet
  cases hl : alistLookup l k with
  | some w => exact alistLookup_map_set hl
  | none => exact alistLookup_append_self hl

theorem mem_listUnion_right {a : String} {old new : List String} (h : a ∈ new) :
    a ∈ listUnion old new := by
  unfold listUnion
  by_cases ho : a ∈ old
  · exact List.mem_append_left _ ho
  · refine List.mem_append_right _ ?_
    rw [List.mem_filter]
    exact ⟨h, by simpa using ho⟩

theorem merge_messages_mem {r : MatrixRoom} {o : Option MatrixRoom} {msg : String}
    (h : msg ∈ r.messages) : msg ∈ (MatrixRoom.merge r o).messages := by
  cases o with
  | none => exact h
  | some old => exact mem_listUnion_right h

theorem mergeRooms_pred {P : MatrixRoom → Prop} (old : List (String × MatrixRoom))
    (rs : List MatrixRoom)
    (hold : ∀ e ∈ old, P e.2)
    (hnew : ∀ r ∈ rs, P (MatrixRoom.merge r (alistLookup old r.id))) :
    ∀ e ∈ mergeRooms old (some rs), P e.2 := by
  unfold mergeRooms
  suffices h : ∀ (rs2 : List MatrixRoom) (base : List (String × MatrixRoom)),
      (∀ e ∈ base, P e.2) →
      (∀ r ∈ rs2, P (MatrixRoom.merge r (alistLookup old r.id))) →
      ∀ e ∈ rs2.foldl (fun merged newRoom => alistSet merged newRoom.id
        (MatrixRoom.merge newRoom (alistLookup old newRoom.id))) base, P e.2 by
    exact h rs old hold hnew
  intro rs2
  induction rs2 with
  | nil =>
    intro base hbase _
    simpa using hbase
  | cons r rest ih =>
    intro base hbase hnew2
    rw [List.foldl_cons]
    refine ih _ ?_ (fun r2 h2 => hnew2 r2 (List.mem_cons_of_mem _ h2))
    intro e he
    rcases mem_alistSet he with rfl | he
    · exact hnew2 r (List.mem_cons_self _ _)
    · exact hbase e he

/-- C6: every room in the blob an `update` writes has an empty `messages`
list, every room rehydrated from that blob has an empty `messages` list,
and the in-memory state produced by the same `update` is not affected by
the clearing: for the spec's single-room scenario the merged in-memory room
still carries every message of the update. -/
theorem room_messages_not_persisted (s : MatrixState) (p : MatrixStateUpdate)
    (rs : List MatrixRoom) (hp : p.rooms = some rs) :
    (∃ b, (update s p).2 = some b ∧
      (∀ e ∈ b.rooms, e.2.messages = ([] : List String)) ∧
      (∀ e ∈ (initFromStorage (some b)).rooms, e.2.messages = ([] : List String))) ∧
    (∀ r, rs = [r] → ∃ room2,
      alistLookup (update s p).1.rooms r.id = some room2 ∧
      ∀ msg ∈ r.messages, msg ∈ room2.messages) := by
  have hsp : shouldPersist p = true := by
    simp [shouldPersist, truthyRoomsOpt, hp]
  constructor
  · refine ⟨prepareData (PreservedState.mk (setState s p).syncToken
      (setState s p).rooms), ?_, ?_, ?_⟩
    · show updateStorage (setState s p) p = _
      unfold updateStorage
      exact if_pos hsp
    · intro e he
      unfold prepareData at he
      obtain ⟨a, _, hfa⟩ := List.mem_map.mp he
      rw [← hfa]
    · intro e he
      have he2 : e ∈ mergeRooms ([] : List (String × MatrixRoom))
          (some ((prepareData (PreservedState.mk (setState s p).syncToken
            (setState s p).rooms)).rooms.map Prod.snd)) := he
      refine @mergeRooms_pred (fun r2 => r2.messages = []) _ _ (by simp) ?_ e he2
      intro r hr
      obtain ⟨a, ha, hfa⟩ := List.mem_map.mp hr
      show (MatrixRoom.merge r none).messages = []
      show r.messages = []
      unfold prepareData at ha
      obtain ⟨a2, _, hfa2⟩ := List.mem_map.mp ha
      rw [← hfa, ← hfa2]
  · intro r hr
    refine ⟨MatrixRoom.merge r (alistLookup s.rooms r.id), ?_, ?_⟩
    · show alistLookup (mergeRooms s.rooms p.rooms) r.id = _
      rw [hp, hr]
      simp only [mergeRooms, List.foldl_cons, List.foldl_nil]
      exact alistLookup_alistSet_self _ _ _
    · intro msg hm
      exact merge_messages_mem hm

/-- Witness for C6: a single joined room carrying one message. -/
theorem room_messages_not_persisted_witness :
    (∃ b, (update initialState
        { rooms := some [⟨"r1", MatrixRoomStatus.joined, ["m"], ["hello"]⟩] }).2 = some b ∧
      (∀ e ∈ b.rooms, e.2.messages = ([] : List String)) ∧
      (∀ e ∈ (initFromStorage (some b)).rooms, e.2.messages = ([] : List String))) ∧
    (∃ room2, alistLookup (update initialState
        { rooms := some [⟨"r1", MatrixRoomStatus.joined, ["m"], ["hello"]⟩] }).1.rooms
        (MatrixRoom.id ⟨"r1", MatrixRoomStatus.joined, ["m"], ["hello"]⟩) = some room2 ∧
      ∀ msg ∈ MatrixRoom.messages ⟨"r1", MatrixRoomStatus.joined, ["m"], ["hello"]⟩,
        msg ∈ room2.messages) :=
  ⟨(room_messages_not_persisted initialState
      { rooms := some [⟨"r1", MatrixRoomStatus.joined, ["m"], ["hello"]⟩] }
      [⟨"r1", MatrixRoomStatus.joined, ["m"], ["hello"]⟩] rfl).1,
   (room_messages_not_persisted initialState
      { rooms := some [⟨"r1", MatrixRoomStatus.joined, ["m"], ["hello"]⟩] }
      [⟨"r1", MatrixRoomStatus.joined, ["m"], ["hello"]⟩] rfl).2
      ⟨"r1", MatrixRoomStatus.joined, ["m"], ["hello"]⟩ rfl⟩

/-- C9: any falsy field of an `update` partial (absent, `false`, `0`, or
the empty string) leaves the corresponding state field at its prior value;
in particular `isRunning` can never be reset from `true` to `false`, and
`txnNo` and `pollingRetries` can never be reset to `0`, through `update`. -/
theorem update_falsy_frame (s : MatrixState) (p : MatrixStateUpdate) :
    ((p.isRunning = none ∨ p.isRunning = some false) →
      (update s p).1.isRunning = s.isRunning) ∧
    (s.isRunning = true → (update s p).1.isRunning = true) ∧
    ((p.userId = none ∨ p.userId = some "") → (update s p).1.userId = s.userId) ∧
    ((p.deviceId = none ∨ p.deviceId = some "") →
      (update s p).1.deviceId = s.deviceId) ∧
    ((p.txnNo = none ∨ p.txnNo = some 0) → (update s p).1.txnNo = s.txnNo) ∧
    (s.txnNo ≠ 0 → (update s p).1.txnNo ≠ 0) ∧
    ((p.accessToken = none ∨ p.accessToken = some "") →
      (update s p).1.accessToken = s.accessToken) ∧
    ((p.syncToken = none ∨ p.syncToken = some "") →
      (update s p).1.syncToken = s.syncToken) ∧
    ((p.pollingTimeout = none ∨ p.pollingTimeout = some 0) →
      (update s p).1.pollingTimeout = s.pollingTimeout) ∧
    ((p.pollingRetries = none ∨ p.pollingRetries = some 0) →
      (update s p).1.pollingRetries = s.pollingRetries) ∧
    (s.pollingRetries ≠ 0 → (update s p).1.pollingRetries ≠ 0) ∧
    (p.rooms = none → (update s p).1.rooms = s.rooms) := by
  refine ⟨?_, ?_, ?_, ?_, ?_, ?_, ?_, ?_, ?_, ?_, ?_, ?_⟩
  · rintro (h | h) <;> simp [update, setState, jsOrBool, h]
  · intro h
    cases hi : p.isRunning with
    | none => simpa [update, setState, jsOrBool, hi] using h
    | some b => cases b <;> simp [update, setState, jsOrBool, hi, h]
  · rintro (h | h) <;> simp [update, setState, jsOrStrOpt, h]
  · rintro (h | h) <;> simp [update, setState, jsOrStrOpt, h]
  · rintro (h | h) <;> simp [update, setState, jsOrNat, h]
  · intro h
    cases ht : p.txnNo with
    | none => simpa [update, setState, jsOrNat, ht] using h
    | some v =>
      by_cases hv : v = 0
      · simpa [update, setState, jsOrNat, ht, hv] using h
      · simp [update, setState, jsOrNat, ht, hv]
  · rintro (h | h) <;> simp [update, setState, jsOrStrOpt, h]
  · rintro (h | h) <;> simp [update, setState, jsOrStrOpt, h]
  · rintro (h | h) <;> simp [update, setState, jsOrNatOpt, h]
  · rintro (h | h) <;> simp [update, setState, jsOrNat, h]
  · intro h
    cases ht : p.pollingRetries with
    | none => simpa [update, setState, jsOrNat, ht] using h
    | some v =>
      by_cases hv : v = 0
      · simpa [update, setState, jsOrNat, ht, hv] using h
      · simp [update, setState, jsOrNat, ht, hv]
  · intro h
    simp [update, setState, mergeRooms, h]

/-- Witness for C9: a running state with nonzero counters survives an
update whose fields are all falsy. -/
theorem update_falsy_frame_witness :
    (update { initialState with isRunning := true, txnNo := 5, pollingRetries := 3 }
      { isRunning := some false, txnNo := some 0, pollingRetries := some 0,
        userId := some "" }).1.isRunning = true ∧
    (update { initialState with isRunning := true, txnNo := 5, pollingRetries := 3 }
      { isRunning := some false, txnNo := some 0, pollingRetries := some 0,
        userId := some "" }).1.txnNo ≠ 0 ∧
    (update { initialState with isRunning := true, txnNo := 5, pollingRetries := 3 }
      { isRunning := some false, txnNo := some 0, pollingRetries := some 0,
        userId := some "" }).1.pollingRetries ≠ 0 ∧
    (update { initialState with isRunning := true, txnNo := 5, pollingRetries := 3 }
      { isRunning := some false, txnNo := some 0, pollingRetries := some 0,
        userId := some "" }).1.userId =
      ({ initialState with isRunning := true, txnNo := 5, pollingRetries := 3 } :
        MatrixState).userId :=
  ⟨(update_falsy_frame _ _).2.1 rfl,
   (update_falsy_frame _ _).2.2.2.2.2.1 (by decide),
   (update_falsy_frame _ _).2.2.2.2.2.2.2.2.2.2.1 (by decide),
   (update_falsy_frame _ _).2.2.1 (Or.inr rfl)⟩

/-- C8 counterexample: on a non-wallet client that was never started,
`prepareStandbyRoom` and `getAndRemoveStandbyRoom` return early without
raising the NotReady error, because their `isWallet` check runs before the
client guard. -/
theorem notReady_guard_counterexample :
    prepareStandbyRoomEntry ⟨false, false⟩ = GuardOutcome.returnsEarly ∧
    getAndRemoveStandbyRoomEntry ⟨false, false⟩ = GuardOutcome.returnsEarly ∧
    prepareStandbyRoomEntry ⟨false, false⟩ ≠
      GuardOutcome.throws clientNotReadyMessage ∧
    getAndRemoveStandbyRoomEntry ⟨false, false⟩ ≠
      GuardOutcome.throws clientNotReadyMessage :=
  ⟨rfl, rfl, by decide, by decide⟩

/-- C8 amended: before `start()` completes, eight of the ten listed
operations raise the NotReady error eagerly, before any other effect;
`prepareStandbyRoom` and `getAndRemoveStandbyRoom` raise it only on wallet
clients, and on non-wallet clients return early without error. -/
theorem notReady_guards (st : P2PClientState) (h : st.clientStarted = false) :
    tryJoinRoomsEntry st = GuardOutcome.throws clientNotReadyMessage ∧
    listenForEncryptedMessageEntry st = GuardOutcome.throws clientNotReadyMessage ∧
    unsubscribeFromEncryptedMessageEntry st =
      GuardOutcome.throws clientNotReadyMessage ∧
    unsubscribeFromEncryptedMessagesEntry st =
      GuardOutcome.throws clientNotReadyMessage ∧
    sendMessageEntry st = GuardOutcome.throws clientNotReadyMessage ∧
    listenForChannelOpeningEntry st = GuardOutcome.throws clientNotReadyMessage ∧
    waitForJoinEntry st = GuardOutcome.throws clientNotReadyMessage ∧
    sendPairingResponseEntry st = GuardOutcome.throws clientNotReadyMessage ∧
    (st.isWallet = true →
      prepareStandbyRoomEntry st = GuardOutcome.throws clientNotReadyMessage ∧
      getAndRemoveStandbyRoomEntry st = GuardOutcome.throws clientNotReadyMessage) ∧
    (st.isWallet = false →
      prepareStandbyRoomEntry st = GuardOutcome.returnsEarly ∧
      getAndRemoveStandbyRoomEntry st = GuardOutcome.returnsEarly) := by
  cases st with
  | mk c w =>
    have hc : c = false := h
    subst hc
    cases w <;> decide

/-- Witness for the amended C8 theorem on unstarted wallet and non-wallet
clients. -/
theorem notReady_guards_witness :
    tryJoinRoomsEntry ⟨false, true⟩ = GuardOutcome.throws clientNotReadyMessage ∧
    prepareStandbyRoomEntry ⟨false, true⟩ =
      GuardOutcome.throws clientNotReadyMessage ∧
    prepareStandbyRoomEntry ⟨false, false⟩ = GuardOutcome.returnsEarly :=
  ⟨(notReady_guards ⟨false, true⟩ rfl).1,
   ((notReady_guards ⟨false, true⟩ rfl).2.2.2.2.2.2.2.2.1 rfl).1,
   ((notReady_guards ⟨false, false⟩ rfl).2.2.2.2.2.2.2.2.2 rfl).1⟩

/-- C7 counterexample: at the concrete configuration `cfg0` the descriptor
type tag is `"p2p-pairing-request"`, not `"pairing-request"`, and the
descriptor's relay server is the empty-nonce selection `"a"`, while
`select(publicKeyHash, "0")` would give `"b"`. -/
theorem getPairingRequestInfo_counterexample :
    (getPairingRequestInfo cfg0 "guid1").type = "p2p-pairing-request" ∧
    ("p2p-pairing-request" : String) ≠ "pairing-request" ∧
    (getPairingRequestInfo cfg0 "guid1").relayServer = "a" ∧
    getRelayServer cfg0.gh (relayServers cfg0) cfg0.publicKeyHash "0" = some "b" ∧
    ("a" : String) ≠ "b" :=
  ⟨rfl, by decide, by decide, by decide, by decide⟩

/-- C7 amended: `getPairingRequestInfo` returns the freshly generated UUID
as its id (distinct UUIDs give distinct ids), type `"p2p-pairing-request"`,
the configured name, the library version, the hex public key, the relay
server selected from the own public-key hash with the *default empty*
nonce, and icon/appUrl exactly when configured (non-empty). -/
theorem getPairingRequestInfo_spec (cfg : P2PClientConfig) (g1 g2 : String)
    (hicon : cfg.iconUrl ≠ some "") (happ : cfg.appUrl ≠ some "") (hg : g1 ≠ g2) :
    (getPairingRequestInfo cfg g1).id = g1 ∧
    (getPairingRequestInfo cfg g1).id ≠ (getPairingRequestInfo cfg g2).id ∧
    (getPairingRequestInfo cfg g1).type = "p2p-pairing-request" ∧
    (getPairingRequestInfo cfg g1).name = cfg.name ∧
    (getPairingRequestInfo cfg g1).version = some cfg.beaconVersion ∧
    (getPairingRequestInfo cfg g1).publicKey = cfg.publicKey ∧
    (getPairingRequestInfo cfg g1).relayServer =
      (getRelayServer cfg.gh (relayServers cfg) cfg.publicKeyHash "").getD "" ∧
    (getPairingRequestInfo cfg g1).icon = cfg.iconUrl ∧
    (getPairingRequestInfo cfg g1).appUrl = cfg.appUrl := by
  refine ⟨rfl, hg, rfl, rfl, rfl, rfl, rfl, ?_, ?_⟩
  · cases hi : cfg.iconUrl with
    | none => simp [getPairingRequestInfo, jsTruthyOpt, hi]
    | some u =>
      have hu : ¬ u = "" := fun he => hicon (by rw [hi, he])
      simp [getPairingRequestInfo, jsTruthyOpt, hi, hu]
  · cases ha : cfg.appUrl with
    | none => simp [getPairingRequestInfo, jsTruthyOpt, ha]
    | some u =>
      have hu : ¬ u = "" := fun he => happ (by rw [ha, he])
      simp [getPairingRequestInfo, jsTruthyOpt, ha, hu]

/-- Witness for the amended C7 theorem at `cfg0`. -/
theorem getPairingRequestInfo_spec_witness :
    (getPairingRequestInfo cfg0 "g1").id = "g1" ∧
    (getPairingRequestInfo cfg0 "g1").id ≠ (getPairingRequestInfo cfg0 "g2").id ∧
    (getPairingRequestInfo cfg0 "g1").type = "p2p-pairing-request" ∧
    (getPairingRequestInfo cfg0 "g1").name = cfg0.name ∧
    (getPairingRequestInfo cfg0 "g1").version = some cfg0.beaconVersion ∧
    (getPairingRequestInfo cfg0 "g1").publicKey = cfg0.publicKey ∧
    (getPairingRequestInfo cfg0 "g1").relayServer =
      (getRelayServer cfg0.gh (relayServers cfg0) cfg0.publicKeyHash "").getD "" ∧
    (getPairingRequestInfo cfg0 "g1").icon = cfg0.iconUrl ∧
    (getPairingRequestInfo cfg0 "g1").appUrl = cfg0.appUrl :=
  getPairingRequestInfo_spec cfg0 "g1" "g2" (by decide) (by decide) (by decide)

/-- C10: the pairing response built by `getPairingResponseInfo` carries the
*request's* id — echoed, not freshly generated — with type
`"p2p-pairing-response"` and the responder's own name, version, public key
and relay server; and for a v2 request (version present)
`sendPairingResponse` seals exactly this response as the channel-open
payload. -/
theorem getPairingResponseInfo_echoes_id (cfg : P2PClientConfig)
    (request : P2PPairingInfo) (v : String) (hv : request.version = some v) :
    (getPairingResponseInfo cfg request).id = request.id ∧
    (getPairingResponseInfo cfg request).type = "p2p-pairing-response" ∧
    (getPairingResponseInfo cfg request).name = cfg.name ∧
    (getPairingResponseInfo cfg request).version = some cfg.beaconVersion ∧
    (getPairingResponseInfo cfg request).publicKey = cfg.publicKey ∧
    (getPairingResponseInfo cfg request).relayServer = clientRelayServer cfg none "" ∧
    sendPairingResponsePayload cfg request =
      Sum.inr (getPairingResponseInfo cfg request) := by
  refine ⟨rfl, rfl, rfl, rfl, rfl, rfl, ?_⟩
  unfold sendPairingResponsePayload
  rw [hv]

/-- Witness for C10: the response to a request generated at `cfg0` echoes
the request's id `"gid"`. -/
theorem getPairingResponseInfo_echoes_id_witness :
    (getPairingResponseInfo cfg0 (getPairingRequestInfo cfg0 "gid")).id =
      (getPairingRequestInfo cfg0 "gid").id ∧
    (getPairingResponseInfo cfg0 (getPairingRequestInfo cfg0 "gid")).type =
      "p2p-pairing-response" ∧
    (getPairingResponseInfo cfg0 (getPairingRequestInfo cfg0 "gid")).name = cfg0.name ∧
    (getPairingResponseInfo cfg0 (getPairingRequestInfo cfg0 "gid")).version =
      some cfg0.beaconVersion ∧
    (getPairingResponseInfo cfg0 (getPairingRequestInfo cfg0 "gid")).publicKey =
      cfg0.publicKey ∧
    (getPairingResponseInfo cfg0 (getPairingRequestInfo cfg0 "gid")).relayServer =
      clientRelayServer cfg0 none "" ∧
    sendPairingResponsePayload cfg0 (getPairingRequestInfo cfg0 "gid") =
      Sum.inr (getPairingResponseInfo cfg0 (getPairingRequestInfo cfg0 "gid")) :=
  getPairingResponseInfo_echoes_id cfg0 (getPairingRequestInfo cfg0 "gid") "2" rfl
